import Mathlib

/-!
Shallow embedding of the django-moderation core (`src/moderation/__init__.py`):
the `GenericModerator` options object, the `ModerationManager` registration
interface, and the `pre_save_handler` / `post_save_handler` signal pair that
maintain one `ModeratedObject` record per tracked instance.

The tracked-entity table and the `ModeratedObject` table are modelled as
explicit association lists inside a `DB` state record; the handlers are pure
functions from state to `Except`-wrapped state, with counters recording their
observable side effects (record saves, `inform_moderator` invocations, mails
dispatched).  Parts of the repository that are imported by the source file but
are not under `src/` (`moderation.models.ModeratedObject`'s field defaults and
`_is_not_equal_instance`, and the `ModerationObjectsManager` read path) are
modelled from the specification and marked as such in their doc comments.
-/

/-- Serialized field values of a tracked-entity instance, as an ordered list of
field-name / serialized-value pairs (the spec's "Snapshot"). -/
abbrev FieldValues := List (String × String)

/-- Moderation status enumeration, mirroring the `MODERATION_STATUS_*`
constants imported from `moderation.models`. -/
inductive ModerationStatus
  | rejected
  | pending
  | approved
deriving DecidableEq, Repr

def MODERATION_STATUS_PENDING : ModerationStatus := ModerationStatus.pending

def MODERATION_STATUS_APPROVED : ModerationStatus := ModerationStatus.approved

/-- A tracked-entity instance as the signal handlers see it: an optional
primary key (unset before the first insert) and its field values. -/
structure Instance where
  pk : Option Nat
  fields : FieldValues
deriving DecidableEq, Repr

/-- Modelled from the spec: the `ModeratedObject` model lives in
`moderation/models.py`, which is not under `src/`.  Per spec section 3 it is
the per-instance ModerationRecord: the subject reference (`object_pk`, set via
`content_object`), the serialized snapshot `changed_object` (unset when the
record is created without assigning it, as the creation path of
`post_save_handler` does), and the status. -/
structure ModeratedObject where
  object_pk : Nat
  changed_object : Option FieldValues
  moderation_status : ModerationStatus
deriving DecidableEq, Repr

/-- Modelled from the spec: the model-level default status of a freshly
constructed `ModeratedObject` (spec sections 3 and 4.2: the initial state is
assigned at record creation and is Pending unless something sets it
otherwise; the handlers in `src/` never set a status at creation). -/
def default_moderation_status : ModerationStatus := MODERATION_STATUS_PENDING

/-- Modelled from the spec: `ModeratedObject._is_not_equal_instance` lives in
`moderation/models.py`, which is not under `src/`.  Per spec section 4.1 it is
the field-wise comparison of the record's serialized snapshot against the
instance; a record whose snapshot was never assigned compares unequal to
every instance. -/
def _is_not_equal_instance (mo : ModeratedObject) (inst : Instance) : Bool :=
  mo.changed_object != some inst.fields

/-- Effects of `_copy_model_instance`: a fresh instance carrying the same
field values (the ones serialized into the record afterwards). -/
def _copy_model_instance (inst : Instance) : Instance :=
  ⟨inst.pk, inst.fields⟩

/-- Moderation options for a model class: the class attributes of
`GenericModerator` with their source defaults. -/
structure GenericModerator where
  manager_names : List String := ["objects"]
  auto_approve_for_staff : Bool := true
  auto_approve_for_groups : Option (List String) := none
  auto_reject_for_groups : Option (List String) := none
  notify_moderator : Bool := true
  notify_user : Bool := true
deriving DecidableEq, Repr

/-- Errors surfaced by the handlers: the exceptions the Python code can raise
(`ObjectDoesNotExist` from a failed `.get`, `MultipleObjectsReturned` from an
ambiguous `.get`, `AttributeError` from calling `.save()` on a `None`
snapshot).  The spec's `StateError` corresponds to the uncaught
`ObjectDoesNotExist` of the after-write hook. -/
inductive PyError
  | objectDoesNotExist
  | multipleObjectsReturned
  | attributeError
deriving DecidableEq, Repr

/-- World state threaded through the handlers: the tracked-entity table
(`rows`, keyed by primary key), the `ModeratedObject` table (`mods`), and
counters for the observable side effects: `moSaves` counts
`ModeratedObject.save()` calls, `informCalls` counts `inform_moderator`
invocations, `notifications` counts mails actually dispatched. -/
structure DB where
  rows : List (Nat × FieldValues)
  mods : List ModeratedObject
  moSaves : Nat
  informCalls : Nat
  notifications : Nat
deriving DecidableEq, Repr

/-- The empty initial state: no tracked rows, no moderation records. -/
def initState : DB := ⟨[], [], 0, 0, 0⟩

/-- Write a row into an association list keyed by primary key: replace the
first entry with that key, or append if absent. -/
def putRow : List (Nat × FieldValues) → Nat → FieldValues → List (Nat × FieldValues)
  | [], pk, v => [(pk, v)]
  | r :: tl, pk, v => if r.1 == pk then (pk, v) :: tl else r :: putRow tl pk v

/-- Persist an instance's fields into the tracked-entity table. -/
def dbPut (s : DB) (pk : Nat) (v : FieldValues) : DB :=
  { s with rows := putRow s.rows pk v }

/-- Read the tracked-entity table (`_default_manager.get(pk=pk)` as a total
lookup). -/
def dbGet (s : DB) (pk : Nat) : Option FieldValues :=
  (s.rows.find? (fun r => r.1 == pk)).map (fun r => r.2)

/-- Replace the first `ModeratedObject` whose `object_pk` matches; used for
`save()` on a record that was fetched from the table. -/
def replaceFirst : List ModeratedObject → Nat → ModeratedObject → List ModeratedObject
  | [], _, _ => []
  | r :: tl, pk, mo => if r.object_pk == pk then mo :: tl else r :: replaceFirst tl pk mo

/-- Effect of `ModeratedObject.save()` on a freshly constructed record:
insert a new row into the `ModeratedObject` table. -/
def modsInsert (s : DB) (mo : ModeratedObject) : DB :=
  { s with mods := s.mods ++ [mo], moSaves := s.moSaves + 1 }

/-- Effect of `ModeratedObject.save()` on a record previously fetched by
`object_pk`: update that row in place. -/
def modsReplace (s : DB) (mo : ModeratedObject) : DB :=
  { s with mods := replaceFirst s.mods mo.object_pk mo, moSaves := s.moSaves + 1 }

/-- Django's `ModeratedObject.objects.get(object_pk=pk)`: the unique matching
record, `ObjectDoesNotExist` when there is none, `MultipleObjectsReturned`
when there are several. -/
def modsGetE (s : DB) (pk : Nat) : Except PyError ModeratedObject :=
  match s.mods.filter (fun mo => mo.object_pk == pk) with
  | [] => Except.error PyError.objectDoesNotExist
  | [mo] => Except.ok mo
  | _ => Except.error PyError.multipleObjectsReturned

/-- `GenericModerator.inform_moderator`: always invoked by the handler; sends
mail to the moderators only when `notify_moderator` is set (source lines
64-73). -/
def inform_moderator (m : GenericModerator) (s : DB) : DB :=
  if m.notify_moderator then
    { s with informCalls := s.informCalls + 1, notifications := s.notifications + 1 }
  else
    { s with informCalls := s.informCalls + 1 }

/-- `ModerationManager._get_or_create_moderated_object` (source lines
210-229): fetch the unchanged persisted row, then fetch the record by
`object_pk`; if the record differs from the instance, stash the unchanged row
as its snapshot; if the record does not exist, build a fresh one whose
subject and snapshot are the unchanged row.  The returned flag records
whether the object is freshly constructed (no storage identity yet), which
determines how the subsequent `save()` hits the table. -/
def _get_or_create_moderated_object (s : DB) (inst : Instance) (p : Nat) :
    Except PyError (Bool × ModeratedObject) :=
  match dbGet s p with
  | none => Except.error PyError.objectDoesNotExist
  | some unchanged =>
    match modsGetE s p with
    | Except.ok mo =>
      if _is_not_equal_instance mo inst then
        Except.ok (false, { mo with changed_object := some unchanged })
      else
        Except.ok (false, mo)
    | Except.error PyError.objectDoesNotExist =>
      Except.ok (true, ⟨p, some unchanged, default_moderation_status⟩)
    | Except.error e => Except.error e

/-- `ModerationManager.pre_save_handler` (source lines 202-208): when the
instance's primary key is truthy (set and non-zero), get-or-create its
moderation record and save it. -/
def pre_save_handler (s : DB) (inst : Instance) : Except PyError DB :=
  match inst.pk with
  | none => Except.ok s
  | some p =>
    if p == 0 then Except.ok s
    else
      match _get_or_create_moderated_object s inst p with
      | Except.ok (true, mo) => Except.ok (modsInsert s mo)
      | Except.ok (false, mo) => Except.ok (modsReplace s mo)
      | Except.error e => Except.error e

/-- `ModerationManager.post_save_handler` (source lines 231-258).  On
creation: fetch the just-written row, build a fresh `ModeratedObject` for it
(its snapshot is left unassigned), save it and invoke `inform_moderator`.
On update: fetch the record; if its snapshot differs from the instance,
persist the snapshot back onto the entity table (`changed_object.save()`),
serialize the written instance into the record, set the status to Pending,
save the record and invoke `inform_moderator`; otherwise do nothing. -/
def post_save_handler (s : DB) (m : GenericModerator) (inst : Instance) (created : Bool) :
    Except PyError DB :=
  match inst.pk with
  | none => Except.error PyError.objectDoesNotExist
  | some p =>
    if created then
      match dbGet s p with
      | none => Except.error PyError.objectDoesNotExist
      | some _old =>
        let mo : ModeratedObject := ⟨p, none, default_moderation_status⟩
        Except.ok (inform_moderator m (modsInsert s mo))
    else
      match modsGetE s p with
      | Except.error e => Except.error e
      | Except.ok mo =>
        if _is_not_equal_instance mo inst then
          match mo.changed_object with
          | none => Except.error PyError.attributeError
          | some snap =>
            let copied := _copy_model_instance inst
            let s₁ := dbPut s p snap
            let mo₁ := { mo with changed_object := some copied.fields,
                                 moderation_status := MODERATION_STATUS_PENDING }
            Except.ok (inform_moderator m (modsReplace s₁ mo₁))
        else
          Except.ok s

/-- One write of a tracked entity: the host persistence layer fires
`pre_save`, lands the write, then fires `post_save`. -/
inductive WriteOp
  | create (pk : Nat) (v : FieldValues)
  | update (pk : Nat) (v : FieldValues)
deriving DecidableEq, Repr

/-- Primary key targeted by a write. -/
def opPk : WriteOp → Nat
  | WriteOp.create pk _ => pk
  | WriteOp.update pk _ => pk

/-- A creation write: the instance has no primary key when `pre_save` fires
(the host assigns it at insert time), so the before-write hook is a no-op;
the row is inserted and `post_save` fires with `created=True`. -/
def runCreate (m : GenericModerator) (s : DB) (pk : Nat) (v : FieldValues) :
    Except PyError DB :=
  match pre_save_handler s ⟨none, v⟩ with
  | Except.error e => Except.error e
  | Except.ok s₁ => post_save_handler (dbPut s₁ pk v) m ⟨some pk, v⟩ true

/-- An update write: `pre_save` fires with the key set, the row is
overwritten, then `post_save` fires with `created=False`. -/
def runUpdate (m : GenericModerator) (s : DB) (pk : Nat) (v : FieldValues) :
    Except PyError DB :=
  match pre_save_handler s ⟨some pk, v⟩ with
  | Except.error e => Except.error e
  | Except.ok s₁ => post_save_handler (dbPut s₁ pk v) m ⟨some pk, v⟩ false

/-- Dispatch a write operation through the hook pair. -/
def runOp (m : GenericModerator) (s : DB) : WriteOp → Except PyError DB
  | WriteOp.create pk v => runCreate m s pk v
  | WriteOp.update pk v => runUpdate m s pk v

/-- Run a sequence of writes, stopping at the first raised exception. -/
def runTrace (m : GenericModerator) (s : DB) : List WriteOp → Except PyError DB
  | [] => Except.ok s
  | op :: tl =>
    match runOp m s op with
    | Except.ok s₁ => runTrace m s₁ tl
    | Except.error e => Except.error e

/-- Modelled from the spec: the Visibility Gateway's moderated (default) read
(spec section 4.3: "returns records as they exist in underlying storage");
the `ModerationObjectsManager` implementing it lives in
`moderation/managers.py`, which is not under `src/`. -/
def moderatedRead (s : DB) (pk : Nat) : Option FieldValues :=
  dbGet s pk

/-- Status of the unique moderation record for a primary key (none when the
record is absent or ambiguous). -/
def statusOf (s : DB) (pk : Nat) : Option ModerationStatus :=
  match s.mods.filter (fun mo => mo.object_pk == pk) with
  | [mo] => some mo.moderation_status
  | _ => none

/-- Stored serialized snapshot of the unique moderation record for a primary
key (none when the record is absent, ambiguous, or its snapshot unassigned). -/
def storedSnapshot (s : DB) (pk : Nat) : Option FieldValues :=
  match s.mods.filter (fun mo => mo.object_pk == pk) with
  | [mo] => mo.changed_object
  | _ => none

/-- Snapshots held by records whose status is Approved in a given state. -/
def approvedFields (s : DB) : List FieldValues :=
  s.mods.filterMap (fun mo =>
    if mo.moderation_status == MODERATION_STATUS_APPROVED then mo.changed_object else none)

/-- Every snapshot that is recorded as Approved in some state along a trace
(including the initial and final states). -/
def approvedAlong (m : GenericModerator) (s : DB) : List WriteOp → List FieldValues
  | [] => approvedFields s
  | op :: tl =>
    approvedFields s ++
      match runOp m s op with
      | Except.ok s₁ => approvedAlong m s₁ tl
      | Except.error _ => []

/-- The acting context auto-approval rules are evaluated against (spec
section 3: ModeratorProfile / AutoApprovalRule policy data). -/
structure ActingContext where
  is_staff : Bool
  groups : List String
deriving DecidableEq, Repr

/-- Modelled from the spec: a deny-list rule match (`auto_reject_for_groups`,
declared at source lines 26-28 but evaluated nowhere under `src/`): the actor
belongs to a deny-listed group (spec section 4.2). -/
def denyMatches (ctx : ActingContext) (m : GenericModerator) : Bool :=
  match m.auto_reject_for_groups with
  | some gs => ctx.groups.any (fun g => gs.contains g)
  | none => false

/-- Modelled from the spec: an allow-list rule match (`auto_approve_for_staff`
/ `auto_approve_for_groups`, declared at source lines 26-28 but evaluated
nowhere under `src/`): the actor is staff while staff auto-approval is on, or
belongs to an allow-listed group (spec section 4.2). -/
def allowMatches (ctx : ActingContext) (m : GenericModerator) : Bool :=
  (m.auto_approve_for_staff && ctx.is_staff) ||
    (match m.auto_approve_for_groups with
     | some gs => ctx.groups.any (fun g => gs.contains g)
     | none => false)

/-- Modelled from the spec: auto-approval evaluation (spec section 4.2):
deny-list rules are checked first and force Pending, short-circuiting
evaluation; otherwise a matching allow rule yields Approved; absence of any
match yields Pending. -/
def automoderate (ctx : ActingContext) (m : GenericModerator) : ModerationStatus :=
  if denyMatches ctx m then MODERATION_STATUS_PENDING
  else if allowMatches ctx m then MODERATION_STATUS_APPROVED
  else MODERATION_STATUS_PENDING

/-- A model class as the registration plumbing observes it: an identity plus
the attributes `register` installs (extra managers, the `moderated_object`
property, the connected signal handlers). -/
structure ModelClass where
  cid : Nat
  manager_attrs : List String
  has_moderated_object : Bool
  pre_save_connected : Bool
  post_save_connected : Bool
deriving DecidableEq, Repr

/-- A moderator class argument to `register`: its option values plus whether
it subclasses `GenericModerator`. -/
structure ModeratorClassArg where
  config : GenericModerator
  is_subclass_of_generic : Bool
deriving DecidableEq, Repr

/-- The `ModerationManager` registry (`_registered_models`). -/
structure ModerationManager where
  registered_models : List (Nat × GenericModerator)
deriving DecidableEq, Repr

/-- Failures `register` can raise: `RegistrationError` for a duplicate,
`AttributeError` for a moderator class that does not subclass
`GenericModerator`. -/
inductive RegistrationFailure
  | registrationError
  | attributeError
deriving DecidableEq, Repr

/-- `ModerationManager.register` (source lines 116-132): raise
`RegistrationError` if the model class is already registered; default the
moderator class to `GenericModerator`; raise `AttributeError` if it is not a
subclass; only then record the registration, install the managers and the
`moderated_object` property, and connect the two signal handlers. -/
def register (mm : ModerationManager) (cls : ModelClass)
    (moderator_class : Option ModeratorClassArg) :
    Except RegistrationFailure (ModerationManager × ModelClass) :=
  if mm.registered_models.any (fun p => p.1 == cls.cid) then
    Except.error RegistrationFailure.registrationError
  else
    let mc := moderator_class.getD ⟨{}, true⟩
    if !mc.is_subclass_of_generic then
      Except.error RegistrationFailure.attributeError
    else
      Except.ok
        ({ registered_models := mm.registered_models ++ [(cls.cid, mc.config)] },
         { cls with
             manager_attrs := cls.manager_attrs ++ ["unmoderated_objects"],
             has_moderated_object := true,
             pre_save_connected := true,
             post_save_connected := true })

/-- Claim C1 as stated, as an executable check over one trace and one key: a
moderated read of the final state is the absent state or a snapshot recorded
as Approved in some state along the trace. -/
def moderatedReadSafeCheck (m : GenericModerator) (tr : List WriteOp) (pk : Nat) : Bool :=
  match runTrace m initState tr with
  | Except.ok s =>
    match moderatedRead s pk with
    | none => true
    | some v => (approvedAlong m initState tr).contains v
  | Except.error _ => true

/-- Claim C2 as stated, as an executable check: a creation write yields a
record whose status is decided by auto-approval evaluation of the acting
context, and the moderator notification is dispatched exactly when that
status is Pending. -/
def creationStatusCheck (m : GenericModerator) (ctx : ActingContext) (s : DB)
    (pk : Nat) (v : FieldValues) : Bool :=
  match runCreate m s pk v with
  | Except.ok s₁ =>
    (statusOf s₁ pk == some (automoderate ctx m)) &&
      (decide (s.notifications < s₁.notifications) == (automoderate ctx m == MODERATION_STATUS_PENDING))
  | Except.error _ => true

/-- Claim C3 as stated, as an executable check: when the acting context
matches an allow rule (and no deny rule), a creation write yields a record
created directly with status Approved, and no moderator notification is
sent. -/
def autoApprovedCreationCheck (m : GenericModerator) (ctx : ActingContext) (s : DB)
    (pk : Nat) (v : FieldValues) : Bool :=
  if allowMatches ctx m && !denyMatches ctx m then
    match runCreate m s pk v with
    | Except.ok s₁ =>
      (statusOf s₁ pk == some MODERATION_STATUS_APPROVED) &&
        (s₁.notifications == s.notifications)
    | Except.error _ => true
  else true

/-- Claim C4 as stated, as an executable check: an update whose written
values differ field-wise from the captured pre-write persisted values leaves
the persisted row at those pre-write values, stores the written values as the
pending snapshot, sets the status to Pending, and invokes the moderator
notification. -/
def updateRestoreCheck (m : GenericModerator) (s : DB) (pk : Nat) (v : FieldValues) : Bool :=
  match dbGet s pk with
  | none => true
  | some a =>
    if v == a then true
    else
      match runUpdate m s pk v with
      | Except.ok s₁ =>
        (dbGet s₁ pk == some a) && (storedSnapshot s₁ pk == some v) &&
          (statusOf s₁ pk == some MODERATION_STATUS_PENDING) &&
          (s₁.informCalls == s.informCalls + 1)
      | Except.error _ => true

/-- Claim C5 as stated, as an executable check: one triggering write performs
exactly one storage write to the moderation record. -/
def singleRecordWriteCheck (m : GenericModerator) (s : DB) (op : WriteOp) : Bool :=
  match runOp m s op with
  | Except.ok s₁ => s₁.moSaves == s.moSaves + 1
  | Except.error _ => true

/-- Default moderator options, as instantiated by `register` when no
moderator class is supplied. -/
def defaultGM : GenericModerator := {}

/-- A staff acting context (matches the default allow rule). -/
def staffCtx : ActingContext := ⟨true, []⟩

/-- Extract the resulting state of a successful run (initial state
otherwise); used to name concrete states in witnesses and counterexamples. -/
def extractOk : Except PyError DB → DB
  | Except.ok s => s
  | Except.error _ => initState

def fX : FieldValues := [("title", "a")]

def fP : FieldValues := [("title", "b")]

def fQ : FieldValues := [("title", "c")]

/-- State after creating instance 1 with fields `fX` from scratch. -/
def sCreate : DB := extractOk (runOp defaultGM initState (WriteOp.create 1 fX))

/-- State after additionally writing `fP` to instance 1: the persisted row is
restored to `fX` and `fP` is held as the pending snapshot. -/
def sPend : DB := extractOk (runOp defaultGM sCreate (WriteOp.update 1 fP))

/-- State after additionally writing `fQ` to instance 1. -/
def sQ : DB := extractOk (runOp defaultGM sPend (WriteOp.update 1 fQ))

/-- Invariant of the `ModeratedObject` store: at most one record per primary
key, and every record refers to an existing tracked row. -/
def goodState (s : DB) : Prop :=
  (∀ pk, (s.mods.filter (fun x => x.object_pk == pk)).length ≤ 1) ∧
    (∀ x ∈ s.mods, (dbGet s x.object_pk).isSome)

/-- Host-semantics validity of a write: the persistence layer fires
`post_save` with `created=True` only when the insert actually created a new
row, so a creation targets a key with no existing row; updates are
unconstrained. -/
def validOp (s : DB) : WriteOp → Prop
  | WriteOp.create pk _ => dbGet s pk = none
  | WriteOp.update _ _ => True

/-- States reachable from the empty store through successful, host-valid
writes dispatched through the hook pair. -/
inductive Reachable (m : GenericModerator) : DB → Prop
  | init : Reachable m initState
  | step (op : WriteOp) (s s' : DB) : Reachable m s → validOp s op →
      runOp m s op = Except.ok s' → Reachable m s'

@[simp] lemma dbPut_mods (s : DB) (pk : Nat) (v : FieldValues) : (dbPut s pk v).mods = s.mods := rfl

@[simp] lemma dbPut_moSaves (s : DB) (pk : Nat) (v : FieldValues) : (dbPut s pk v).moSaves = s.moSaves := rfl

@[simp] lemma dbPut_informCalls (s : DB) (pk : Nat) (v : FieldValues) : (dbPut s pk v).informCalls = s.informCalls := rfl

@[simp] lemma dbPut_notifications (s : DB) (pk : Nat) (v : FieldValues) : (dbPut s pk v).notifications = s.notifications := rfl

@[simp] lemma modsInsert_rows (s : DB) (mo : ModeratedObject) : (modsInsert s mo).rows = s.rows := rfl

@[simp] lemma modsInsert_mods (s : DB) (mo : ModeratedObject) : (modsInsert s mo).mods = s.mods ++ [mo] := rfl

@[simp] lemma modsInsert_moSaves (s : DB) (mo : ModeratedObject) : (modsInsert s mo).moSaves = s.moSaves + 1 := rfl

@[simp] lemma modsInsert_informCalls (s : DB) (mo : ModeratedObject) : (modsInsert s mo).informCalls = s.informCalls := rfl

@[simp] lemma modsInsert_notifications (s : DB) (mo : ModeratedObject) : (modsInsert s mo).notifications = s.notifications := rfl

@[simp] lemma modsReplace_rows (s : DB) (mo : ModeratedObject) : (modsReplace s mo).rows = s.rows := rfl

@[simp] lemma modsReplace_mods (s : DB) (mo : ModeratedObject) : (modsReplace s mo).mods = replaceFirst s.mods mo.object_pk mo := rfl

@[simp] lemma modsReplace_moSaves (s : DB) (mo : ModeratedObject) : (modsReplace s mo).moSaves = s.moSaves + 1 := rfl

@[simp] lemma modsReplace_informCalls (s : DB) (mo : ModeratedObject) : (modsReplace s mo).informCalls = s.informCalls := rfl

@[simp] lemma modsReplace_notifications (s : DB) (mo : ModeratedObject) : (modsReplace s mo).notifications = s.notifications := rfl

@[simp] lemma inform_moderator_rows (m : GenericModerator) (s : DB) : (inform_moderator m s).rows = s.rows := by
  unfold inform_moderator; split <;> rfl

@[simp] lemma inform_moderator_mods (m : GenericModerator) (s : DB) : (inform_moderator m s).mods = s.mods := by
  unfold inform_moderator; split <;> rfl

@[simp] lemma inform_moderator_moSaves (m : GenericModerator) (s : DB) : (inform_moderator m s).moSaves = s.moSaves := by
  unfold inform_moderator; split <;> rfl

@[simp] lemma inform_moderator_informCalls (m : GenericModerator) (s : DB) :
    (inform_moderator m s).informCalls = s.informCalls + 1 := by
  unfold inform_moderator; split <;> rfl

@[simp] lemma inform_moderator_notifications (m : GenericModerator) (s : DB) :
    (inform_moderator m s).notifications = s.notifications + (if m.notify_moderator then 1 else 0) := by
  unfold inform_moderator; split <;> simp

lemma find?_putRow_self (l : List (Nat × FieldValues)) (pk : Nat) (v : FieldValues) :
    (putRow l pk v).find? (fun r => r.1 == pk) = some (pk, v) := by
  induction l with
  | nil => simp [putRow, List.find?]
  | cons r tl ih =>
    by_cases h : r.1 = pk
    · simp [putRow, h, List.find?]
    · have hb : (r.1 == pk) = false := by simpa using h
      simp [putRow, hb, List.find?, ih]

lemma find?_putRow_other (l : List (Nat × FieldValues)) (pk pk' : Nat) (v : FieldValues)
    (h : pk' ≠ pk) :
    (putRow l pk v).find? (fun r => r.1 == pk') = l.find? (fun r => r.1 == pk') := by
  induction l with
  | nil =>
    have hb : (pk == pk') = false := by simpa using (Ne.symm h)
    simp [putRow, List.find?, hb]
  | cons r tl ih =>
    by_cases hr : r.1 = pk
    · have hb : (pk == pk') = false := by simpa using (Ne.symm h)
      have hrb : (r.1 == pk') = false := by simpa [hr] using (Ne.symm h)
      simp [putRow, hr, List.find?, hb, hrb]
    · have hrb : (r.1 == pk) = false := by simpa using hr
      cases hc : (r.1 == pk') with
      | true => simp [putRow, hrb, List.find?, hc]
      | false => simp [putRow, hrb, List.find?, hc, ih]

@[simp] lemma dbGet_dbPut_self (s : DB) (pk : Nat) (v : FieldValues) :
    dbGet (dbPut s pk v) pk = some v := by
  simp [dbGet, dbPut, find?_putRow_self]

lemma dbGet_dbPut_other (s : DB) (pk pk' : Nat) (v : FieldValues) (h : pk' ≠ pk) :
    dbGet (dbPut s pk v) pk' = dbGet s pk' := by
  simp [dbGet, dbPut, find?_putRow_other _ _ _ _ h]

lemma dbGet_isSome_dbPut (s : DB) (pk pk' : Nat) (v : FieldValues)
    (h : (dbGet s pk').isSome) : (dbGet (dbPut s pk v) pk').isSome := by
  by_cases he : pk' = pk
  · subst he; simp
  · rwa [dbGet_dbPut_other _ _ _ _ he]

lemma filter_singleton_key (l : List ModeratedObject) (r : ModeratedObject) (pk : Nat)
    (h : l.filter (fun mo => mo.object_pk == pk) = [r]) : r.object_pk = pk := by
  have hr : r ∈ l.filter (fun mo => mo.object_pk == pk) := by rw [h]; simp
  have := List.of_mem_filter hr
  simpa using this

lemma replaceFirst_no_match (l₁ l₂ : List ModeratedObject) (pk : Nat) (mo : ModeratedObject)
    (h : l₁.filter (fun x => x.object_pk == pk) = []) :
    replaceFirst (l₁ ++ l₂) pk mo = l₁ ++ replaceFirst l₂ pk mo := by
  induction l₁ with
  | nil => simp
  | cons r tl ih =>
    rw [List.filter_cons] at h
    by_cases hr : (r.object_pk == pk) = true
    · simp [hr] at h
    · have hrb : (r.object_pk == pk) = false := by simpa using hr
      rw [List.cons_append, replaceFirst]
      simp only [hrb]
      rw [if_neg (by simp [hrb])]
      rw [ih (by simpa [hrb] using h)]
      simp

lemma filter_replaceFirst_self (l : List ModeratedObject) (r : ModeratedObject) (pk : Nat)
    (mo : ModeratedObject) (h : l.filter (fun x => x.object_pk == pk) = [r])
    (hmo : mo.object_pk = pk) :
    (replaceFirst l pk mo).filter (fun x => x.object_pk == pk) = [mo] := by
  induction l with
  | nil => simp at h
  | cons a tl ih =>
    rw [List.filter_cons] at h
    by_cases ha : (a.object_pk == pk) = true
    · simp only [ha, if_pos rfl] at h
      have htl : tl.filter (fun x => x.object_pk == pk) = [] := by
        cases hc : tl.filter (fun x => x.object_pk == pk) with
        | nil => rfl
        | cons b tb => rw [hc] at h; simp at h
      rw [replaceFirst, if_pos ha, List.filter_cons]
      simp [hmo, htl]
    · have hab : (a.object_pk == pk) = false := by simpa using ha
      rw [replaceFirst, if_neg (by simp [hab]), List.filter_cons]
      rw [if_neg (by simp [hab])]
      exact ih (by simpa [hab] using h)

lemma filter_replaceFirst_other (l : List ModeratedObject) (pk pk' : Nat) (mo : ModeratedObject)
    (hmo : mo.object_pk = pk) (hne : pk' ≠ pk) :
    (replaceFirst l pk mo).filter (fun x => x.object_pk == pk') =
      l.filter (fun x => x.object_pk == pk') := by
  induction l with
  | nil => simp [replaceFirst]
  | cons a tl ih =>
    by_cases ha : (a.object_pk == pk) = true
    · have hmo' : (mo.object_pk == pk') = false := by
        simp [hmo]; exact fun hc => (hne hc.symm).elim
      have ha' : (a.object_pk == pk') = false := by
        have : a.object_pk = pk := by simpa using ha
        simp [this]; exact fun hc => (hne hc.symm).elim
      rw [replaceFirst, if_pos ha, List.filter_cons, List.filter_cons]
      simp [hmo', ha']
    · have hab : (a.object_pk == pk) = false := by simpa using ha
      rw [replaceFirst, if_neg (by simp [hab]), List.filter_cons, List.filter_cons]
      cases hc : (a.object_pk == pk') with
      | true => simp [hc, ih]
      | false => simp [hc, ih]

lemma replaceFirst_length (l : List ModeratedObject) (pk : Nat) (mo : ModeratedObject) :
    (replaceFirst l pk mo).length = l.length := by
  induction l with
  | nil => rfl
  | cons a tl ih =>
    by_cases ha : (a.object_pk == pk) = true
    · rw [replaceFirst, if_pos ha]; simp
    · rw [replaceFirst, if_neg (by simpa using ha)]; simp [ih]

lemma mem_replaceFirst (l : List ModeratedObject) (pk : Nat) (mo x : ModeratedObject)
    (h : x ∈ replaceFirst l pk mo) : x ∈ l ∨ x = mo := by
  induction l with
  | nil => simp [replaceFirst] at h
  | cons a tl ih =>
    by_cases ha : (a.object_pk == pk) = true
    · rw [replaceFirst, if_pos ha] at h
      rcases List.mem_cons.mp h with h | h
      · exact Or.inr h
      · exact Or.inl (List.mem_cons_of_mem _ h)
    · rw [replaceFirst, if_neg (by simpa using ha)] at h
      rcases List.mem_cons.mp h with h | h
      · exact Or.inl (h ▸ List.mem_cons_self _ _)
      · rcases ih h with h | h
        · exact Or.inl (List.mem_cons_of_mem _ h)
        · exact Or.inr h

@[simp] lemma dbGet_inform_moderator (m : GenericModerator) (s : DB) (pk : Nat) :
    dbGet (inform_moderator m s) pk = dbGet s pk := by
  simp [dbGet]

@[simp] lemma dbGet_modsInsert (s : DB) (mo : ModeratedObject) (pk : Nat) :
    dbGet (modsInsert s mo) pk = dbGet s pk := by
  simp [dbGet]

@[simp] lemma dbGet_modsReplace (s : DB) (mo : ModeratedObject) (pk : Nat) :
    dbGet (modsReplace s mo) pk = dbGet s pk := by
  simp [dbGet]

@[simp] lemma statusOf_inform_moderator (m : GenericModerator) (s : DB) (pk : Nat) :
    statusOf (inform_moderator m s) pk = statusOf s pk := by
  simp [statusOf]

@[simp] lemma statusOf_dbPut (s : DB) (pk pk' : Nat) (v : FieldValues) :
    statusOf (dbPut s pk v) pk' = statusOf s pk' := by
  simp [statusOf]

@[simp] lemma storedSnapshot_inform_moderator (m : GenericModerator) (s : DB) (pk : Nat) :
    storedSnapshot (inform_moderator m s) pk = storedSnapshot s pk := by
  simp [storedSnapshot]

@[simp] lemma storedSnapshot_dbPut (s : DB) (pk pk' : Nat) (v : FieldValues) :
    storedSnapshot (dbPut s pk v) pk' = storedSnapshot s pk' := by
  simp [storedSnapshot]

/-- Claim C1, counterexample: a single creation write of instance 1 with
fields `fX` leaves the just-written, never-approved values visible to a
moderated read — the read is neither the absent state nor a prior approved
snapshot (no snapshot is ever Approved along the trace), because the
creation path of `post_save_handler` performs no restore. -/
theorem creation_exposes_unapproved_values :
    moderatedReadSafeCheck defaultGM [WriteOp.create 1 fX] 1 = false := by decide

/-- Claim C2, counterexample: a creation write in a staff acting context
(which satisfies the default `auto_approve_for_staff` allow rule) produces a
record whose status is Pending, not the Approved that auto-approval
evaluation yields, and the moderator notification is dispatched regardless —
`post_save_handler` never evaluates auto-approval. -/
theorem creation_ignores_auto_approval :
    creationStatusCheck defaultGM staffCtx initState 1 fX = false := by decide

/-- Claim C3, counterexample: a creation write by a staff actor matching the
default allow rule still yields a Pending record and still dispatches the
moderator notification. -/
theorem auto_approved_creation_still_pending_and_notified :
    autoApprovedCreationCheck defaultGM staffCtx initState 2 fP = false := by decide

/-- Claim C4, counterexample: from the reachable state `sPend` (row 1 holds
`fX`, the record's stored snapshot is the pending `fP`), writing `fP` — which
differs field-wise from the captured pre-write persisted values `fX` — is not
restored: the handlers compare against the stored pending snapshot, find it
equal, and let the unapproved values become live. -/
theorem update_equal_to_pending_snapshot_not_restored :
    updateRestoreCheck defaultGM sPend 1 fP = false := by decide

/-- Claim C5, counterexample: from the reachable state `sCreate`, the update
writing `fP` performs two storage writes to the moderation record — one
unconditional save in `pre_save_handler` and one in the changed branch of
`post_save_handler` — not exactly one. -/
theorem changing_update_writes_record_twice :
    singleRecordWriteCheck defaultGM sCreate (WriteOp.update 1 fP) = false := by decide

/-- Claim C6: an after-write invocation with `created=False` for a key that
has no moderation record — the before-write hook never captured a baseline —
raises the uncaught `ObjectDoesNotExist` of `ModeratedObject.objects.get`
(the spec's `StateError`); no state is returned, so the write is not
silently accepted into moderation. -/
theorem post_save_without_snapshot_fails (s : DB) (m : GenericModerator) (pk : Nat)
    (v : FieldValues) (h : s.mods.filter (fun mo => mo.object_pk == pk) = []) :
    post_save_handler s m ⟨some pk, v⟩ false = Except.error PyError.objectDoesNotExist := by
  simp [post_save_handler, modsGetE, h]

/-- Witness for C6: in the empty state, the after-write hook for key 7 fails
with `ObjectDoesNotExist`. -/
theorem post_save_without_snapshot_fails_witness :
    post_save_handler initState defaultGM ⟨some 7, fX⟩ false =
      Except.error PyError.objectDoesNotExist :=
  post_save_without_snapshot_fails initState defaultGM 7 fX (by decide)

/-- Claim C7: registering a model class already present in the registry
raises `RegistrationError`; the duplicate check precedes every effect (source
lines 118-120), and since `register` only delivers an updated registry and
model class through its success value, an error leaves both exactly as they
were — no managers added, no signals connected. -/
theorem register_duplicate_raises (mm : ModerationManager) (cls : ModelClass)
    (mc : Option ModeratorClassArg)
    (h : mm.registered_models.any (fun p => p.1 == cls.cid) = true) :
    register mm cls mc = Except.error RegistrationFailure.registrationError := by
  simp [register, h]

/-- Witness for C7: re-registering class 5 in a registry that already holds
it fails with `RegistrationError`. -/
theorem register_duplicate_raises_witness :
    register ⟨[(5, defaultGM)]⟩ ⟨5, ["objects"], false, false, false⟩ none =
      Except.error RegistrationFailure.registrationError :=
  register_duplicate_raises ⟨[(5, defaultGM)]⟩ ⟨5, ["objects"], false, false, false⟩ none
    (by decide)

/-- Claim C8: in auto-approval evaluation, a matching deny-list rule forces
Pending regardless of any matching allow rule (deny is checked first and
short-circuits), and when no rule matches at all the result is Pending. -/
theorem automoderate_deny_wins (ctx : ActingContext) (m : GenericModerator) :
    (denyMatches ctx m = true → automoderate ctx m = MODERATION_STATUS_PENDING) ∧
      (denyMatches ctx m = false → allowMatches ctx m = false →
        automoderate ctx m = MODERATION_STATUS_PENDING) := by
  constructor
  · intro h; simp [automoderate, h]
  · intro h₁ h₂; simp [automoderate, h₁, h₂]

/-- Witness for C8: an actor in group "g" when "g" is both allow-listed and
deny-listed is forced to Pending, and an actor matching nothing is Pending. -/
theorem automoderate_deny_wins_witness :
    automoderate ⟨false, ["g"]⟩
        { auto_approve_for_groups := some ["g"], auto_reject_for_groups := some ["g"] } =
      MODERATION_STATUS_PENDING ∧
    automoderate ⟨false, []⟩ { auto_approve_for_staff := false } =
      MODERATION_STATUS_PENDING :=
  ⟨(automoderate_deny_wins ⟨false, ["g"]⟩
      { auto_approve_for_groups := some ["g"], auto_reject_for_groups := some ["g"] }).1
      (by decide),
   (automoderate_deny_wins ⟨false, []⟩ { auto_approve_for_staff := false }).2
      (by decide) (by decide)⟩

/-- Claim C10: a pre-save invocation on an instance whose primary key is
unset returns the state unchanged — no moderation record is fetched, created
or saved, no snapshot is captured, and every effect counter is untouched. -/
theorem pre_save_unset_pk_no_effect (s : DB) (v : FieldValues) :
    pre_save_handler s ⟨none, v⟩ = Except.ok s := rfl

lemma pre_save_none (s : DB) (v : FieldValues) :
    pre_save_handler s ⟨none, v⟩ = Except.ok s := rfl

lemma runCreate_ok (m : GenericModerator) (s : DB) (pk : Nat) (v : FieldValues) :
    runCreate m s pk v =
      Except.ok (inform_moderator m
        (modsInsert (dbPut s pk v) ⟨pk, none, default_moderation_status⟩)) := by
  unfold runCreate
  rw [pre_save_none]
  unfold post_save_handler
  simp [dbGet_dbPut_self]

/-- Claim C2, amended: on every creation write the handler saves a fresh
record carrying the model's default Pending status — no auto-approval
evaluation takes place (the signal carries no acting context) — and
`inform_moderator` is invoked exactly once, dispatching the notification
whenever `notify_moderator` is set, independently of any status. -/
theorem creation_pending_and_always_informs (m : GenericModerator) (s : DB) (pk : Nat)
    (v : FieldValues) (s' : DB)
    (hmo : s.mods.filter (fun mo => mo.object_pk == pk) = [])
    (h : runCreate m s pk v = Except.ok s') :
    statusOf s' pk = some MODERATION_STATUS_PENDING ∧
      s'.informCalls = s.informCalls + 1 ∧
      s'.notifications = s.notifications + (if m.notify_moderator then 1 else 0) := by
  rw [runCreate_ok] at h
  cases h
  refine ⟨?_, by simp, by simp⟩
  simp [statusOf, List.filter_append, hmo, default_moderation_status]

/-- Witness for the amended C2: creating instance 1 from the empty state
yields a Pending record, one `inform_moderator` call and one dispatched
notification. -/
theorem creation_pending_and_always_informs_witness :
    statusOf sCreate 1 = some MODERATION_STATUS_PENDING ∧
      sCreate.informCalls = initState.informCalls + 1 ∧
      sCreate.notifications =
        initState.notifications + (if defaultGM.notify_moderator then 1 else 0) :=
  creation_pending_and_always_informs defaultGM initState 1 fX sCreate (by decide) rfl

/-- Claim C3, amended: a creation write whose acting context matches an
allow-list rule (and no deny rule) behaves exactly like any other creation —
the record is saved with the default Pending status, not Approved, the
written values stay live, and the moderator notification is dispatched
whenever `notify_moderator` is set (its source default is true). -/
theorem auto_approved_creation_behaves_like_any (m : GenericModerator) (ctx : ActingContext)
    (s : DB) (pk : Nat) (v : FieldValues) (s' : DB)
    (hallow : allowMatches ctx m = true) (hdeny : denyMatches ctx m = false)
    (hmo : s.mods.filter (fun mo => mo.object_pk == pk) = [])
    (h : runCreate m s pk v = Except.ok s') :
    statusOf s' pk = some MODERATION_STATUS_PENDING ∧
      dbGet s' pk = some v ∧
      s'.notifications = s.notifications + (if m.notify_moderator then 1 else 0) := by
  rw [runCreate_ok] at h
  cases h
  refine ⟨?_, ?_, by simp⟩
  · simp [statusOf, List.filter_append, hmo, default_moderation_status]
  · simp

/-- Witness for the amended C3: a staff actor (matching the default allow
rule, no deny rule configured) creating instance 2 still gets a Pending
record, the written values live, and a dispatched notification. -/
theorem auto_approved_creation_behaves_like_any_witness :
    statusOf (extractOk (runCreate defaultGM initState 2 fP)) 2 =
        some MODERATION_STATUS_PENDING ∧
      dbGet (extractOk (runCreate defaultGM initState 2 fP)) 2 = some fP ∧
      (extractOk (runCreate defaultGM initState 2 fP)).notifications =
        initState.notifications + (if defaultGM.notify_moderator then 1 else 0) :=
  auto_approved_creation_behaves_like_any defaultGM staffCtx initState 2 fP
    (extractOk (runCreate defaultGM initState 2 fP))
    (by decide) (by decide) (by decide) rfl

set_option maxHeartbeats 1000000 in
lemma runUpdate_changed_spec (m : GenericModerator) (s : DB) (pk : Nat) (v a : FieldValues)
    (s' : DB) (hpk : pk ≠ 0) (ha : dbGet s pk = some a)
    (hsnap : storedSnapshot s pk ≠ some v) (h : runUpdate m s pk v = Except.ok s') :
    moderatedRead s' pk = some a ∧
      (v ≠ a →
        storedSnapshot s' pk = some v ∧
        statusOf s' pk = some MODERATION_STATUS_PENDING ∧
        s'.informCalls = s.informCalls + 1 ∧
        s'.moSaves = s.moSaves + 2) := by
  have hpk0 : (pk == 0) = false := by simpa using hpk
  unfold runUpdate pre_save_handler _get_or_create_moderated_object at h
  simp only [hpk0, Bool.false_eq_true, if_false] at h
  rw [ha] at h
  rcases hf : s.mods.filter (fun mo => mo.object_pk == pk) with _ | ⟨mo, _ | ⟨mo2, tl⟩⟩
  · -- no record before the write: pre-save inserts a fresh one
    simp only [modsGetE, hf] at h
    unfold post_save_handler at h
    simp only [Bool.false_eq_true, if_false, modsGetE, dbPut_mods, modsInsert_mods,
      List.filter_append, hf, List.nil_append, List.filter_cons, List.filter_nil,
      beq_self_eq_true, if_true, _is_not_equal_instance] at h
    by_cases hav : v = a
    · subst hav
      simp only [bne_self_eq_false, Bool.false_eq_true, if_false] at h
      cases h
      exact ⟨by simp [moderatedRead], fun hc => absurd rfl hc⟩
    · have hbne : (some a != some v) = true := by
        simp only [bne_iff_ne, ne_eq, Option.some.injEq]
        exact fun hc => hav hc.symm
      simp only [hbne, if_true] at h
      cases h
      refine ⟨by simp [moderatedRead], fun _ => ?_⟩
      have hrep : replaceFirst
          (s.mods ++ [(⟨pk, some a, default_moderation_status⟩ : ModeratedObject)]) pk
          ⟨pk, some v, MODERATION_STATUS_PENDING⟩ =
          s.mods ++ [⟨pk, some v, MODERATION_STATUS_PENDING⟩] := by
        rw [replaceFirst_no_match _ _ _ _ hf]
        simp [replaceFirst]
      refine ⟨?_, ?_, by simp, by simp⟩
      · simp only [storedSnapshot, inform_moderator_mods, modsReplace_mods, dbPut_mods,
          modsInsert_mods, _copy_model_instance, hrep, List.filter_append, hf,
          List.nil_append, List.filter_cons, beq_self_eq_true, if_true, List.filter_nil]
      · simp only [statusOf, inform_moderator_mods, modsReplace_mods, dbPut_mods,
          modsInsert_mods, _copy_model_instance, hrep, List.filter_append, hf,
          List.nil_append, List.filter_cons, beq_self_eq_true, if_true, List.filter_nil]
  · -- a unique record exists: pre-save stashes the unchanged row into it
    have hkey : mo.object_pk = pk := filter_singleton_key _ _ _ hf
    have hsn : mo.changed_object ≠ some v := by
      simpa [storedSnapshot, hf] using hsnap
    have hbne₁ : (mo.changed_object != some v) = true := by
      simpa only [bne_iff_ne, ne_eq] using hsn
    simp only [modsGetE, hf, _is_not_equal_instance, hbne₁, if_true] at h
    unfold post_save_handler at h
    have hf₁ : (replaceFirst s.mods pk
        (⟨pk, some a, mo.moderation_status⟩ : ModeratedObject)).filter
        (fun x => x.object_pk == pk) =
        [⟨pk, some a, mo.moderation_status⟩] :=
      filter_replaceFirst_self _ _ _ _ hf rfl
    simp only [Bool.false_eq_true, if_false, modsGetE, dbPut_mods, modsReplace_mods,
      hkey, hf₁, _is_not_equal_instance] at h
    by_cases hav : v = a
    · subst hav
      simp only [bne_self_eq_false, Bool.false_eq_true, if_false] at h
      cases h
      exact ⟨by simp [moderatedRead], fun hc => absurd rfl hc⟩
    · have hbne : (some a != some v) = true := by
        simp only [bne_iff_ne, ne_eq, Option.some.injEq]
        exact fun hc => hav hc.symm
      simp only [hbne, if_true] at h
      cases h
      refine ⟨by simp [moderatedRead], fun _ => ?_⟩
      have hrep : (replaceFirst
          (replaceFirst s.mods pk (⟨pk, some a, mo.moderation_status⟩ : ModeratedObject)) pk
          ⟨pk, some v, MODERATION_STATUS_PENDING⟩).filter
          (fun x => x.object_pk == pk) =
          [⟨pk, some v, MODERATION_STATUS_PENDING⟩] :=
        filter_replaceFirst_self _ _ _ _ hf₁ rfl
      refine ⟨?_, ?_, by simp, by simp⟩
      · simp only [storedSnapshot, inform_moderator_mods, modsReplace_mods, dbPut_mods,
          _copy_model_instance, hkey, hrep]
      · simp only [statusOf, inform_moderator_mods, modsReplace_mods, dbPut_mods,
          _copy_model_instance, hkey, hrep]
  · -- several records: the Django get raises and the handler fails
    simp only [modsGetE, hf] at h
    exact Except.noConfusion h

/-- Claim C1, amended: updates are the only held-back writes, and then only
when the written values differ from the record's stored snapshot: for an
update (with a truthy key) whose values differ from the stored
`changed_object` snapshot, the after-write hook restores the persisted row,
so a moderated read returns exactly what it returned before the write.
Creation writes, and updates equal to the stored pending snapshot, leave the
written (unapproved) values visible — no snapshot is ever marked Approved by
the handlers. -/
theorem differing_update_preserves_moderated_read (m : GenericModerator) (s : DB)
    (pk : Nat) (v : FieldValues) (s' : DB) (hpk : pk ≠ 0)
    (hsnap : storedSnapshot s pk ≠ some v) (h : runUpdate m s pk v = Except.ok s') :
    moderatedRead s' pk = moderatedRead s pk := by
  rcases hdb : dbGet s pk with _ | a
  · exfalso
    have hpk0 : (pk == 0) = false := by simpa using hpk
    unfold runUpdate pre_save_handler _get_or_create_moderated_object at h
    simp only [hpk0, Bool.false_eq_true, if_false] at h
    rw [hdb] at h
    exact Except.noConfusion h
  · have hs := runUpdate_changed_spec m s pk v a s' hpk hdb hsnap h
    rw [hs.1, moderatedRead, hdb]

/-- Witness for the amended C1: in state `sPend` (row 1 holds `fX`, pending
snapshot `fP`) writing `fQ` leaves the moderated read unchanged. -/
theorem differing_update_preserves_moderated_read_witness :
    moderatedRead sQ 1 = moderatedRead sPend 1 :=
  differing_update_preserves_moderated_read defaultGM sPend 1 fQ sQ
    (by decide) (by decide) rfl

/-- Claim C4, amended: for an update (with a truthy key) whose written values
differ both from the record's stored snapshot — the baseline the handlers
actually compare against — and from the persisted pre-write row, the
after-write hook restores the row to the pre-write values, stores the
written values as the pending snapshot, sets the status to Pending, and
invokes `inform_moderator` once.  When the written values equal the stored
pending snapshot the handlers do nothing, even if they differ from the
persisted pre-write row. -/
theorem update_differing_from_stored_snapshot_restores (m : GenericModerator) (s : DB)
    (pk : Nat) (v a : FieldValues) (s' : DB) (hpk : pk ≠ 0)
    (ha : dbGet s pk = some a) (hva : v ≠ a)
    (hsnap : storedSnapshot s pk ≠ some v) (h : runUpdate m s pk v = Except.ok s') :
    dbGet s' pk = some a ∧ storedSnapshot s' pk = some v ∧
      statusOf s' pk = some MODERATION_STATUS_PENDING ∧
      s'.informCalls = s.informCalls + 1 := by
  have hs := runUpdate_changed_spec m s pk v a s' hpk ha hsnap h
  rcases hs.2 hva with ⟨h1, h2, h3, _⟩
  exact ⟨hs.1, h1, h2, h3⟩

/-- Witness for the amended C4: in state `sPend` writing `fQ` (different from
both the stored snapshot `fP` and the persisted row `fX`) restores row 1 to
`fX`, stores `fQ` as pending, sets Pending and informs the moderator once. -/
theorem update_differing_from_stored_snapshot_restores_witness :
    dbGet sQ 1 = some fX ∧ storedSnapshot sQ 1 = some fQ ∧
      statusOf sQ 1 = some MODERATION_STATUS_PENDING ∧
      sQ.informCalls = sPend.informCalls + 1 :=
  update_differing_from_stored_snapshot_restores defaultGM sPend 1 fQ fX sQ
    (by decide) (by decide) (by decide) (by decide) rfl

set_option maxHeartbeats 1000000 in
lemma runUpdate_moSaves (m : GenericModerator) (s : DB) (pk : Nat) (v : FieldValues)
    (s' : DB) (hpk : pk ≠ 0) (h : runUpdate m s pk v = Except.ok s') :
    (s'.moSaves = s.moSaves + 1 ∨ s'.moSaves = s.moSaves + 2) ∧
      s'.notifications ≤ s.notifications + 1 := by
  have hpk0 : (pk == 0) = false := by simpa using hpk
  unfold runUpdate pre_save_handler _get_or_create_moderated_object at h
  simp only [hpk0, Bool.false_eq_true, if_false] at h
  rcases hdb : dbGet s pk with _ | a
  · rw [hdb] at h
    exact Except.noConfusion h
  rw [hdb] at h
  rcases hf : s.mods.filter (fun mo => mo.object_pk == pk) with _ | ⟨mo, _ | ⟨mo2, tl⟩⟩
  · -- record absent: pre-save inserts, then post-save sees the fresh snapshot
    simp only [modsGetE, hf] at h
    unfold post_save_handler at h
    simp only [Bool.false_eq_true, if_false, modsGetE, dbPut_mods, modsInsert_mods,
      List.filter_append, hf, List.nil_append, List.filter_cons, List.filter_nil,
      beq_self_eq_true, if_true, _is_not_equal_instance] at h
    by_cases hbv : (some a != some v) = true
    · simp only [hbv, if_true] at h
      cases h
      refine ⟨Or.inr (by simp), ?_⟩
      cases hm : m.notify_moderator <;> simp [hm]
    · rw [Bool.not_eq_true] at hbv
      simp only [hbv, Bool.false_eq_true, if_false] at h
      cases h
      exact ⟨Or.inl (by simp), by simp⟩
  · -- record present: pre-save saves it, post-save may save again
    have hkey : mo.object_pk = pk := filter_singleton_key _ _ _ hf
    by_cases hne : (mo.changed_object != some v) = true
    · simp only [modsGetE, hf, _is_not_equal_instance, hne, if_true] at h
      unfold post_save_handler at h
      have hf₁ : (replaceFirst s.mods pk
          (⟨pk, some a, mo.moderation_status⟩ : ModeratedObject)).filter
          (fun x => x.object_pk == pk) =
          [⟨pk, some a, mo.moderation_status⟩] :=
        filter_replaceFirst_self _ _ _ _ hf rfl
      simp only [Bool.false_eq_true, if_false, modsGetE, dbPut_mods, modsReplace_mods,
        hkey, hf₁, _is_not_equal_instance] at h
      by_cases hbv : (some a != some v) = true
      · simp only [hbv, if_true] at h
        cases h
        refine ⟨Or.inr (by simp), ?_⟩
        cases hm : m.notify_moderator <;> simp [hm]
      · rw [Bool.not_eq_true] at hbv
        simp only [hbv, Bool.false_eq_true, if_false] at h
        cases h
        exact ⟨Or.inl (by simp), by simp⟩
    · rw [Bool.not_eq_true] at hne
      simp only [modsGetE, hf, _is_not_equal_instance, hne, Bool.false_eq_true, if_false] at h
      unfold post_save_handler at h
      have hf₁ : (replaceFirst s.mods pk mo).filter (fun x => x.object_pk == pk) = [mo] :=
        filter_replaceFirst_self _ _ _ _ hf hkey
      simp only [Bool.false_eq_true, if_false, modsGetE, dbPut_mods, modsReplace_mods,
        hkey, hf₁, _is_not_equal_instance, hne] at h
      cases h
      exact ⟨Or.inl (by simp), by simp⟩
  · simp only [modsGetE, hf] at h
    exact Except.noConfusion h

/-- Claim C5, amended: per triggering write (with a truthy key), a creation
performs exactly one storage write to the moderation record, while an update
performs one or two — the before-write hook saves the record unconditionally
and the after-write hook saves it a second time when the change test fires —
and every write dispatches at most one notification. -/
theorem record_write_counts (m : GenericModerator) (s : DB) (op : WriteOp) (s' : DB)
    (hpk : opPk op ≠ 0) (h : runOp m s op = Except.ok s') :
    (match op with
     | WriteOp.create _ _ => s'.moSaves = s.moSaves + 1
     | WriteOp.update _ _ => s'.moSaves = s.moSaves + 1 ∨ s'.moSaves = s.moSaves + 2) ∧
      s'.notifications ≤ s.notifications + 1 := by
  cases op with
  | create pk v =>
    rw [runOp, runCreate_ok] at h
    cases h
    refine ⟨by simp, ?_⟩
    cases hm : m.notify_moderator <;> simp [hm]
  | update pk v =>
    exact runUpdate_moSaves m s pk v s' hpk h

/-- Witness for the amended C5: the update writing `fP` on `sCreate` performs
two record writes (its change test fires) and one notification dispatch. -/
theorem record_write_counts_witness :
    (sPend.moSaves = sCreate.moSaves + 1 ∨ sPend.moSaves = sCreate.moSaves + 2) ∧
      sPend.notifications ≤ sCreate.notifications + 1 :=
  record_write_counts defaultGM sCreate (WriteOp.update 1 fP) sPend (by decide) rfl

set_option maxHeartbeats 1000000 in
lemma pre_save_shape (s : DB) (pk : Nat) (v : FieldValues) (s₁ : DB) (hpk : pk ≠ 0)
    (h : pre_save_handler s ⟨some pk, v⟩ = Except.ok s₁) :
    (s₁.mods.filter (fun x => x.object_pk == pk)).length ≤ 1 ∧
    (∀ pk', pk' ≠ pk → s₁.mods.filter (fun x => x.object_pk == pk') =
        s.mods.filter (fun x => x.object_pk == pk')) ∧
    (∀ x ∈ s₁.mods, x ∈ s.mods ∨ x.object_pk = pk) ∧
    s₁.rows = s.rows ∧
    (s.mods.filter (fun x => x.object_pk == pk) ≠ [] → s₁.mods.length = s.mods.length) := by
  have hpk0 : (pk == 0) = false := by simpa using hpk
  unfold pre_save_handler _get_or_create_moderated_object at h
  simp only [hpk0, Bool.false_eq_true, if_false] at h
  rcases hdb : dbGet s pk with _ | a
  · rw [hdb] at h
    exact Except.noConfusion h
  rw [hdb] at h
  rcases hf : s.mods.filter (fun mo => mo.object_pk == pk) with _ | ⟨mo, _ | ⟨mo2, tl⟩⟩
  · simp only [modsGetE, hf] at h
    cases h
    refine ⟨?_, ?_, ?_, rfl, fun hc => absurd hf hc⟩
    · simp [List.filter_append, hf]
    · intro pk' hne
      have : ((⟨pk, some a, default_moderation_status⟩ : ModeratedObject).object_pk == pk') =
          false := by
        simp only [ModeratedObject.object_pk]
        simpa using fun hc => hne hc.symm
      simp [List.filter_append, this]
    · intro x hx
      rcases List.mem_append.mp hx with hx | hx
      · exact Or.inl hx
      · simp only [List.mem_singleton] at hx
        subst hx
        exact Or.inr rfl
  · have hkey : mo.object_pk = pk := filter_singleton_key _ _ _ hf
    by_cases hne : (mo.changed_object != some v) = true
    · simp only [modsGetE, hf, _is_not_equal_instance, hne, if_true] at h
      cases h
      have hf₁ : (replaceFirst s.mods pk
          (⟨pk, some a, mo.moderation_status⟩ : ModeratedObject)).filter
          (fun x => x.object_pk == pk) = [⟨pk, some a, mo.moderation_status⟩] :=
        filter_replaceFirst_self _ _ _ _ hf rfl
      refine ⟨?_, ?_, ?_, rfl, fun _ => ?_⟩
      · simp only [modsReplace_mods, hkey, ModeratedObject.object_pk, hf₁]
        simp
      · intro pk' hne'
        simp only [modsReplace_mods, hkey, ModeratedObject.object_pk]
        exact filter_replaceFirst_other _ _ _ _ rfl hne'
      · intro x hx
        simp only [modsReplace_mods, hkey, ModeratedObject.object_pk] at hx
        rcases mem_replaceFirst _ _ _ _ hx with hx | hx
        · exact Or.inl hx
        · subst hx
          exact Or.inr rfl
      · simp only [modsReplace_mods, hkey, ModeratedObject.object_pk]
        exact replaceFirst_length _ _ _
    · rw [Bool.not_eq_true] at hne
      simp only [modsGetE, hf, _is_not_equal_instance, hne, Bool.false_eq_true, if_false] at h
      cases h
      have hf₁ : (replaceFirst s.mods pk mo).filter (fun x => x.object_pk == pk) = [mo] :=
        filter_replaceFirst_self _ _ _ _ hf hkey
      refine ⟨?_, ?_, ?_, rfl, fun _ => ?_⟩
      · simp only [modsReplace_mods, hkey, hf₁]
        simp
      · intro pk' hne'
        simp only [modsReplace_mods, hkey]
        exact filter_replaceFirst_other _ _ _ _ hkey hne'
      · intro x hx
        simp only [modsReplace_mods, hkey] at hx
        rcases mem_replaceFirst _ _ _ _ hx with hx | hx
        · exact Or.inl hx
        · subst hx
          exact Or.inr hkey
      · simp only [modsReplace_mods, hkey]
        exact replaceFirst_length _ _ _
  · simp only [modsGetE, hf] at h
    exact Except.noConfusion h

set_option maxHeartbeats 1000000 in
lemma post_update_shape (m : GenericModerator) (s : DB) (pk : Nat) (v : FieldValues)
    (s' : DB) (h : post_save_handler s m ⟨some pk, v⟩ false = Except.ok s') :
    (s'.mods.filter (fun x => x.object_pk == pk)).length ≤ 1 ∧
    (∀ pk', pk' ≠ pk → s'.mods.filter (fun x => x.object_pk == pk') =
        s.mods.filter (fun x => x.object_pk == pk')) ∧
    (∀ x ∈ s'.mods, x ∈ s.mods ∨ x.object_pk = pk) ∧
    (∀ q, (dbGet s q).isSome → (dbGet s' q).isSome) ∧
    s'.mods.length = s.mods.length := by
  unfold post_save_handler at h
  simp only [Bool.false_eq_true, if_false, modsGetE] at h
  rcases hf : s.mods.filter (fun mo => mo.object_pk == pk) with _ | ⟨mo, _ | ⟨mo2, tl⟩⟩
  · rw [hf] at h
    exact Except.noConfusion h
  · rw [hf] at h
    have hkey : mo.object_pk = pk := filter_singleton_key _ _ _ hf
    by_cases hne : _is_not_equal_instance mo ⟨some pk, v⟩ = true
    · simp only [hne, if_true] at h
      rcases hco : mo.changed_object with _ | snap
      · rw [hco] at h
        exact Except.noConfusion h
      · rw [hco] at h
        cases h
        have hf₂ : ((dbPut s pk snap).mods).filter
            (fun x => x.object_pk == pk) = [mo] := by
          simpa using hf
        have hrep : (replaceFirst (dbPut s pk snap).mods pk
            (⟨pk, some v, MODERATION_STATUS_PENDING⟩ : ModeratedObject)).filter
            (fun x => x.object_pk == pk) = [⟨pk, some v, MODERATION_STATUS_PENDING⟩] :=
          filter_replaceFirst_self _ _ _ _ hf₂ rfl
        refine ⟨?_, ?_, ?_, ?_, ?_⟩
        · simp only [inform_moderator_mods, modsReplace_mods, _copy_model_instance, hkey,
            ModeratedObject.object_pk]
          simp only [ModeratedObject.object_pk] at hrep
          rw [hrep]
          simp
        · intro pk' hne'
          simp only [inform_moderator_mods, modsReplace_mods, _copy_model_instance, hkey,
            ModeratedObject.object_pk, dbPut_mods]
          exact filter_replaceFirst_other _ _ _ _ rfl hne'
        · intro x hx
          simp only [inform_moderator_mods, modsReplace_mods, _copy_model_instance, hkey,
            ModeratedObject.object_pk, dbPut_mods] at hx
          rcases mem_replaceFirst _ _ _ _ hx with hx | hx
          · exact Or.inl hx
          · subst hx
            exact Or.inr rfl
        · intro q hq
          simp only [dbGet_inform_moderator, dbGet_modsReplace]
          exact dbGet_isSome_dbPut s pk q snap hq
        · simp only [inform_moderator_mods, modsReplace_mods, _copy_model_instance, hkey,
            ModeratedObject.object_pk, dbPut_mods]
          exact replaceFirst_length _ _ _
    · rw [Bool.not_eq_true] at hne
      simp only [hne, Bool.false_eq_true, if_false] at h
      cases h
      refine ⟨by simp [hf], fun pk' hne' => rfl, fun x hx => Or.inl hx, fun q hq => hq, rfl⟩
  · rw [hf] at h
    exact Except.noConfusion h

set_option maxHeartbeats 1000000 in
lemma runUpdate_shape (m : GenericModerator) (s : DB) (pk : Nat) (v : FieldValues) (s' : DB)
    (h : runUpdate m s pk v = Except.ok s') :
    (s'.mods.filter (fun x => x.object_pk == pk)).length ≤ 1 ∧
    (∀ pk', pk' ≠ pk → s'.mods.filter (fun x => x.object_pk == pk') =
        s.mods.filter (fun x => x.object_pk == pk')) ∧
    (∀ x ∈ s'.mods, x ∈ s.mods ∨ x.object_pk = pk) ∧
    (∀ q, (dbGet s q).isSome → (dbGet s' q).isSome) ∧
    (dbGet s' pk).isSome ∧
    (s.mods.filter (fun x => x.object_pk == pk) ≠ [] → s'.mods.length = s.mods.length) := by
  by_cases hpk : pk = 0
  · subst hpk
    have hpre : pre_save_handler s ⟨some 0, v⟩ = Except.ok s := rfl
    unfold runUpdate at h
    rw [hpre] at h
    obtain ⟨p1, p2, p3, p4, p5⟩ := post_update_shape m (dbPut s 0 v) 0 v s' h
    refine ⟨p1, ?_, ?_, ?_, ?_, ?_⟩
    · intro pk' hne
      rw [p2 pk' hne]
      simp
    · intro x hx
      rcases p3 x hx with hx | hx
      · exact Or.inl (by simpa using hx)
      · exact Or.inr hx
    · intro q hq
      exact p4 q (dbGet_isSome_dbPut _ _ _ _ hq)
    · exact p4 0 (by simp)
    · intro _
      rw [p5]
      simp
  · rcases hpre : pre_save_handler s ⟨some pk, v⟩ with e | s₁
    · unfold runUpdate at h
      rw [hpre] at h
      exact Except.noConfusion h
    · unfold runUpdate at h
      rw [hpre] at h
      obtain ⟨q1, q2, q3, q4, q5⟩ := pre_save_shape s pk v s₁ hpk hpre
      obtain ⟨p1, p2, p3, p4, p5⟩ := post_update_shape m (dbPut s₁ pk v) pk v s' h
      have hs₁get : ∀ q, dbGet s₁ q = dbGet s q := by
        intro q
        simp [dbGet, q4]
      refine ⟨p1, ?_, ?_, ?_, ?_, ?_⟩
      · intro pk' hne
        rw [p2 pk' hne]
        simpa using q2 pk' hne
      · intro x hx
        rcases p3 x hx with hx | hx
        · exact q3 x (by simpa using hx)
        · exact Or.inr hx
      · intro q hq
        refine p4 q ?_
        by_cases hq0 : q = pk
        · subst hq0
          simp
        · rw [dbGet_dbPut_other _ _ _ _ hq0, hs₁get]
          exact hq
      · exact p4 pk (by simp)
      · intro hne
        rw [p5, dbPut_mods]
        exact q5 hne

lemma goodState_create (m : GenericModerator) (s : DB) (pk : Nat) (v : FieldValues) (s' : DB)
    (hdb : dbGet s pk = none) (hg : goodState s)
    (h : runCreate m s pk v = Except.ok s') : goodState s' := by
  rw [runCreate_ok] at h
  cases h
  have hnone : s.mods.filter (fun x => x.object_pk == pk) = [] := by
    rw [List.filter_eq_nil_iff]
    intro x hx hxpk
    have hsome := hg.2 x hx
    rw [show x.object_pk = pk from by simpa using hxpk, hdb] at hsome
    simp at hsome
  constructor
  · intro pk'
    by_cases hpe : pk' = pk
    · subst hpe
      simp [List.filter_append, hnone]
    · have hb : ((⟨pk, none, default_moderation_status⟩ : ModeratedObject).object_pk == pk') =
          false := by
        simp only [ModeratedObject.object_pk]
        simpa using fun hc => hpe hc.symm
      simp only [inform_moderator_mods, modsInsert_mods, dbPut_mods, List.filter_append,
        List.filter_cons, hb, Bool.false_eq_true, if_false, List.filter_nil, List.append_nil]
      exact hg.1 pk'
  · intro x hx
    simp only [inform_moderator_mods, modsInsert_mods, dbPut_mods] at hx
    rcases List.mem_append.mp hx with hx | hx
    · have := hg.2 x hx
      simp only [dbGet_inform_moderator, dbGet_modsInsert]
      exact dbGet_isSome_dbPut _ _ _ _ this
    · simp only [List.mem_singleton] at hx
      subst hx
      simp only [dbGet_inform_moderator, dbGet_modsInsert, ModeratedObject.object_pk]
      simp

lemma goodState_update (m : GenericModerator) (s : DB) (pk : Nat) (v : FieldValues) (s' : DB)
    (hg : goodState s) (h : runUpdate m s pk v = Except.ok s') : goodState s' := by
  obtain ⟨p1, p2, p3, p4, p5, _⟩ := runUpdate_shape m s pk v s' h
  constructor
  · intro pk'
    by_cases hpe : pk' = pk
    · subst hpe
      exact p1
    · rw [p2 pk' hpe]
      exact hg.1 pk'
  · intro x hx
    rcases p3 x hx with hx' | hx'
    · exact p4 _ (hg.2 x hx')
    · rw [hx']
      exact p5

lemma reachable_goodState (m : GenericModerator) (s : DB) (h : Reachable m s) :
    goodState s := by
  induction h with
  | init =>
    exact ⟨fun pk => by simp [initState], fun x hx => by simp [initState] at hx⟩
  | step op s s' _ hv hrun ih =>
    cases op with
    | create pk v => exact goodState_create m s pk v s' hv ih hrun
    | update pk v => exact goodState_update m s pk v s' ih hrun

/-- Claim C9: in every state reachable through the hook pair there is at most
one `ModeratedObject` per primary key (together with existence of the record
once one was created, this is the spec's "exactly one per pair"), and a write
for a key that already has a record resolves to that record — the store's
record count does not change, no duplicate is created.  Creations never hit
an existing record: `created=True` implies a fresh row, and every record of a
reachable state refers to an existing row. -/
theorem unique_record_per_pk (m : GenericModerator) (s : DB) (pk : Nat) (v : FieldValues)
    (s₂ : DB) (h : Reachable m s) :
    (s.mods.filter (fun x => x.object_pk == pk)).length ≤ 1 ∧
      (s.mods.any (fun x => x.object_pk == pk) = true →
        runOp m s (WriteOp.update pk v) = Except.ok s₂ →
        s₂.mods.length = s.mods.length) := by
  refine ⟨(reachable_goodState m s h).1 pk, fun hany hrun => ?_⟩
  have hne : s.mods.filter (fun x => x.object_pk == pk) ≠ [] := by
    rcases List.any_eq_true.mp hany with ⟨x, hx, hxpk⟩
    intro hc
    have hmem : x ∈ s.mods.filter (fun x => x.object_pk == pk) :=
      List.mem_filter.mpr ⟨hx, hxpk⟩
    rw [hc] at hmem
    simp at hmem
  exact (runUpdate_shape m s pk v s₂ hrun).2.2.2.2.2 hne

lemma reachable_sCreate : Reachable defaultGM sCreate :=
  Reachable.step (WriteOp.create 1 fX) initState sCreate Reachable.init
    (show dbGet initState 1 = none from rfl) rfl

/-- Witness for C9: the state after one creation is reachable, holds a single
record for key 1, and the subsequent update resolves to that record without
growing the record store. -/
theorem unique_record_per_pk_witness :
    (sCreate.mods.filter (fun x => x.object_pk == 1)).length ≤ 1 ∧
      sPend.mods.length = sCreate.mods.length :=
  ⟨(unique_record_per_pk defaultGM sCreate 1 fP sPend reachable_sCreate).1,
   (unique_record_per_pk defaultGM sCreate 1 fP sPend reachable_sCreate).2 (by decide) rfl⟩
